import Mathlib

/-!
Verification development for the kaspad-stratum bridge.

Shallow embedding of the core of the repository:
  * `src/uint.rs`   - the 4x64-bit little-endian unsigned integer `U256`,
    embedded as natural numbers below `2 ^ 256` with every operation taking
    an explicit `% 2 ^ 256` (or `% 2 ^ 64`) where the Rust code wraps;
  * `src/pow.rs`    - compact-target decoding and the difficulty scalar;
  * `src/kaspad.rs` - the block-header digest (keyed Blake2b-256, the
    semantics of the `blake2b_simd` dependency per RFC 7693) and the
    upstream client's inbound payload classification;
  * `src/stratum/server.rs` - the job cache (`Jobs`), `write_template`, and
    the per-connection request dispatch of `StratumConn::run`.

Machine integers are `Nat` (or `Int` for `i64`) with explicit reductions;
fallible Rust code (`Result`, `?`) is embedded with `Option` / `Except`.
-/

set_option maxRecDepth 10000

/-! ## Byte-level helpers -/

/-- Little-endian byte encoding of `n`, exactly `k` bytes (the Rust
`to_le_bytes` of a `k`-byte machine integer; higher bytes are truncated the
way the cast in the source truncates). -/
def toLeBytes : Nat → Nat → List Nat
  | 0, _ => []
  | k + 1, n => (n % 256) :: toLeBytes k (n / 256)

/-- Little-endian value of a byte list (inverse direction of `toLeBytes`). -/
def leWord : List Nat → Nat
  | [] => 0
  | b :: rest => b + 256 * leWord rest

/-- Value of one hexadecimal digit, upper or lower case (the digit set
accepted by the `hex` crate and by `from_str_radix(_, 16)`). -/
def hexDigitVal (c : Char) : Option Nat :=
  if '0' ≤ c ∧ c ≤ '9' then some (c.toNat - '0'.toNat)
  else if 'a' ≤ c ∧ c ≤ 'f' then some (c.toNat - 'a'.toNat + 10)
  else if 'A' ≤ c ∧ c ≤ 'F' then some (c.toNat - 'A'.toNat + 10)
  else none

/-- Decode a list of hex characters, two characters per byte.  Fails on a
non-hex character or an odd number of characters. -/
def hexDecodeChars : List Char → Option (List Nat)
  | [] => some []
  | [_] => none
  | hi :: lo :: rest => do
    let h ← hexDigitVal hi
    let l ← hexDigitVal lo
    let tail ← hexDecodeChars rest
    pure ((16 * h + l) :: tail)

/-- Model of `hex::decode_to_slice(s, &mut buf[..n])`: the string must hold
exactly `2 * n` hex characters. -/
def hexDecodeExact (n : Nat) (s : String) : Option (List Nat) :=
  if s.data.length = 2 * n then hexDecodeChars s.data else none

/-! ## Blake2b-256 (keyed), the semantics of the `blake2b_simd` dependency -/

/-- The 64-bit word modulus. -/
def M64 : Nat := 2 ^ 64

/-- Right rotation of a 64-bit word. -/
def rotr64 (x n : Nat) : Nat :=
  ((x >>> n) ||| (x <<< (64 - n))) % M64

/-- Replace the element at position `i` of a list. -/
def setNth : List Nat → Nat → Nat → List Nat
  | [], _, _ => []
  | _ :: xs, 0, v => v :: xs
  | x :: xs, n + 1, v => x :: setNth xs n v

/-- The Blake2b initialization vector. -/
def blakeIV : List Nat :=
  [0x6a09e667f3bcc908, 0xbb67ae8584caa73b, 0x3c6ef372fe94f82b,
   0xa54ff53a5f1d36f1, 0x510e527fade682d1, 0x9b05688c2b3e6c1f,
   0x1f83d9abfb41bd6b, 0x5be0cd19137e2179]

/-- The Blake2b message schedule (rounds 10 and 11 reuse rows 0 and 1). -/
def blakeSigma : List (List Nat) :=
  [[0, 1, 2, 3, 4, 5, 6, 7, 8, 9, 10, 11, 12, 13, 14, 15],
   [14, 10, 4, 8, 9, 15, 13, 6, 1, 12, 0, 2, 11, 7, 5, 3],
   [11, 8, 12, 0, 5, 2, 15, 13, 10, 14, 3, 6, 7, 1, 9, 4],
   [7, 9, 3, 1, 13, 12, 11, 14, 2, 6, 5, 10, 4, 0, 15, 8],
   [9, 0, 5, 7, 2, 4, 10, 15, 14, 1, 11, 12, 6, 8, 3, 13],
   [2, 12, 6, 10, 0, 11, 8, 3, 4, 13, 7, 5, 15, 14, 1, 9],
   [12, 5, 1, 15, 14, 13, 4, 10, 0, 7, 6, 3, 9, 2, 8, 11],
   [13, 11, 7, 14, 12, 1, 3, 9, 5, 0, 15, 4, 8, 6, 2, 10],
   [6, 15, 14, 9, 11, 3, 0, 8, 12, 2, 13, 7, 1, 4, 10, 5],
   [10, 2, 8, 4, 7, 6, 1, 5, 15, 11, 9, 14, 3, 12, 13, 0]]

/-- The Blake2b mixing function G on the 16-word working vector. -/
def gmix (v : List Nat) (a b c d x y : Nat) : List Nat :=
  let va := (v.getD a 0 + v.getD b 0 + x) % M64
  let vd := rotr64 ((v.getD d 0) ^^^ va) 32
  let vc := (v.getD c 0 + vd) % M64
  let vb := rotr64 ((v.getD b 0) ^^^ vc) 24
  let va2 := (va + vb + y) % M64
  let vd2 := rotr64 (vd ^^^ va2) 16
  let vc2 := (vc + vd2) % M64
  let vb2 := rotr64 (vb ^^^ vc2) 63
  setNth (setNth (setNth (setNth v a va2) b vb2) c vc2) d vd2

/-- One Blake2b round: eight G applications with message words selected by
the schedule row `s`. -/
def blakeRound (m v s : List Nat) : List Nat :=
  let mi := fun (i : Nat) => m.getD (s.getD i 0) 0
  let v1 := gmix v 0 4 8 12 (mi 0) (mi 1)
  let v2 := gmix v1 1 5 9 13 (mi 2) (mi 3)
  let v3 := gmix v2 2 6 10 14 (mi 4) (mi 5)
  let v4 := gmix v3 3 7 11 15 (mi 6) (mi 7)
  let v5 := gmix v4 0 5 10 15 (mi 8) (mi 9)
  let v6 := gmix v5 1 6 11 12 (mi 10) (mi 11)
  let v7 := gmix v6 2 7 8 13 (mi 12) (mi 13)
  gmix v7 3 4 9 14 (mi 14) (mi 15)

/-- Split a byte list into little-endian 64-bit words, eight bytes each
(fuel-based so that the kernel can evaluate it; `blockWords` supplies
enough fuel). -/
def blockWordsGo : Nat → List Nat → List Nat
  | 0, _ => []
  | _, [] => []
  | fuel + 1, l => leWord (l.take 8) :: blockWordsGo fuel (l.drop 8)

/-- Split a byte list into the little-endian 64-bit words of one block. -/
def blockWords (l : List Nat) : List Nat :=
  blockWordsGo l.length l

/-- The Blake2b compression function.  `t` is the byte offset counter and
`last` marks the final block. -/
def blakeCompress (h block : List Nat) (t : Nat) (last : Bool) : List Nat :=
  let m := blockWords block
  let v := h ++ blakeIV
  let v := setNth v 12 ((v.getD 12 0) ^^^ (t % M64))
  let v := setNth v 13 ((v.getD 13 0) ^^^ (t / M64 % M64))
  let v := if last then setNth v 14 ((v.getD 14 0) ^^^ (M64 - 1)) else v
  let v := (List.range 12).foldl (fun w i => blakeRound m w (blakeSigma.getD (i % 10) [])) v
  (List.range 8).map (fun i => (h.getD i 0) ^^^ (v.getD i 0) ^^^ (v.getD (i + 8) 0))

/-- Pad a byte list with zeros to 128 bytes. -/
def pad128 (l : List Nat) : List Nat :=
  l ++ List.replicate (128 - l.length) 0

/-- Split a byte list into 128-byte chunks; the final chunk may be short
(and is the whole list when at most 128 bytes remain).  The first argument
is fuel, one unit per produced chunk; `chunks128` passes the list itself,
whose length always bounds the chunk count. -/
def chunksGo : List Nat → List Nat → List (List Nat)
  | _, [] => []
  | [], l => [l]
  | _ :: fuel, l =>
    match l.drop 128 with
    | [] => [l]
    | rest => l.take 128 :: chunksGo fuel rest

/-- Split a nonempty byte list into 128-byte chunks. -/
def chunks128 (l : List Nat) : List (List Nat) :=
  chunksGo l l

/-- Absorb the message chunks: every chunk but the last is compressed with
`last = false`; the last chunk is zero-padded and compressed with
`last = true` and the total byte count. -/
def absorbChunks (h : List Nat) (cs : List (List Nat)) (t : Nat) : List Nat :=
  match cs with
  | [] => h
  | [c] => blakeCompress h (pad128 c) (t + c.length) true
  | c :: rest => absorbChunks (blakeCompress h c (t + 128) false) rest (t + 128)

/-- Concatenate a list of byte lists. -/
def flattenBytes : List (List Nat) → List Nat
  | [] => []
  | x :: xs => x ++ flattenBytes xs

/-- Convert the eight 64-bit state words into the digest bytes (the words
little-endian, truncated to the digest length). -/
def stateToBytes (h : List Nat) (nn : Nat) : List Nat :=
  (flattenBytes (h.map (toLeBytes 8))).take nn

/-- Keyed Blake2b with key `key` (nonempty, at most 64 bytes) and digest
length `nn`, applied to the byte message `msg`.  The key is absorbed as one
padded 128-byte block, then the message. -/
def blake2bKeyed (key msg : List Nat) (nn : Nat) : List Nat :=
  let h0 := setNth blakeIV 0
    ((blakeIV.getD 0 0) ^^^ (0x01010000 ^^^ (key.length <<< 8) ^^^ nn))
  let kb := pad128 key
  match msg with
  | [] => stateToBytes (blakeCompress h0 kb 128 true) nn
  | _ =>
    let h1 := blakeCompress h0 kb 128 false
    stateToBytes (absorbChunks h1 (chunks128 msg) 128) nn

/-- The ASCII bytes of the header-hash key "BlockHash". -/
def blockHashKey : List Nat := [66, 108, 111, 99, 107, 72, 97, 115, 104]

/-! ## Block header model and digest (`src/kaspad.rs`, `RpcBlockHeader::hash`) -/

/-- One parent level of a block header: an ordered list of hex-encoded
32-byte hashes (proto `RpcBlockLevelParents`). -/
structure RpcBlockLevelParents where
  parent_hashes : List String
deriving DecidableEq

/-- The proto `RpcBlockHeader`.  `version` is a u32 in the proto and is cast
to u16 when hashed; `timestamp` is an i64; numeric fields are `Nat` values
of the corresponding machine width.  The opaque transaction payload of a
block is never inspected by the core and is omitted from `RpcBlock`. -/
structure RpcBlockHeader where
  version : Nat
  parents : List RpcBlockLevelParents
  hash_merkle_root : String
  accepted_id_merkle_root : String
  utxo_commitment : String
  timestamp : Int
  bits : Nat
  nonce : Nat
  daa_score : Nat
  blue_score : Nat
  blue_work : String
  pruning_point : String
deriving DecidableEq

/-- The proto `RpcBlock`, reduced to the only field the core reads. -/
structure RpcBlock where
  header : Option RpcBlockHeader
deriving DecidableEq

/-- Serialize the parent levels: per level the hash count as u64 then each
32-byte hash. -/
def serializeParents : List RpcBlockLevelParents → Option (List Nat)
  | [] => some []
  | level :: rest => do
    let hashes ← serializeLevel level.parent_hashes
    let tail ← serializeParents rest
    pure (toLeBytes 8 level.parent_hashes.length ++ hashes ++ tail)
where
  serializeLevel : List String → Option (List Nat)
    | [] => some []
    | h :: hs => do
      let bytes ← hexDecodeExact 32 h
      let tail ← serializeLevel hs
      pure (bytes ++ tail)

/-- Serialize `blue_work`: hex decode with a `0` nibble prepended when the
length is odd; the resulting byte length (absorbed as u64) is
`(len + 1) / 2` and must fit the 32-byte scratch buffer of the source. -/
def serializeBlueWork (s : String) : Option (List Nat) := do
  let len := (s.data.length + 1) / 2
  if len > 32 then none
  else
    let bytes ← if s.data.length % 2 == 0 then hexDecodeExact len s
                else hexDecodeChars ('0' :: s.data)
    pure (toLeBytes 8 len ++ bytes)

/-- The byte stream absorbed by `RpcBlockHeader::hash`.  In pre-PoW mode the
timestamp and nonce are absorbed as zero; `bits` is absorbed as is. -/
def serializeHeader (h : RpcBlockHeader) (pre_pow : Bool) : Option (List Nat) := do
  let parents ← serializeParents h.parents
  let hmr ← hexDecodeExact 32 h.hash_merkle_root
  let aimr ← hexDecodeExact 32 h.accepted_id_merkle_root
  let utxo ← hexDecodeExact 32 h.utxo_commitment
  let tn : Int × Nat := if pre_pow then (0, 0) else (h.timestamp, h.nonce)
  let bw ← serializeBlueWork h.blue_work
  let pp ← hexDecodeExact 32 h.pruning_point
  pure (toLeBytes 2 (h.version % 2 ^ 16)
    ++ toLeBytes 8 h.parents.length
    ++ parents
    ++ hmr ++ aimr ++ utxo
    ++ toLeBytes 8 ((tn.1 % (2 ^ 64 : Int)).toNat)
    ++ toLeBytes 4 h.bits
    ++ toLeBytes 8 tn.2
    ++ toLeBytes 8 h.daa_score
    ++ toLeBytes 8 h.blue_score
    ++ bw
    ++ pp)

/-- `RpcBlockHeader::hash`: keyed Blake2b-256 with key "BlockHash" over the
serialized header; `none` models the `Result::Err` of a failed hex decode. -/
def headerHash (h : RpcBlockHeader) (pre_pow : Bool) : Option (List Nat) :=
  (serializeHeader h pre_pow).map (fun msg => blake2bKeyed blockHashKey msg 32)

/-- `RpcBlockHeader::pre_pow`: the pre-PoW digest reinterpreted as four
little-endian u64 words. -/
def headerPrePow (h : RpcBlockHeader) : Option (List Nat) :=
  (headerHash h true).map blockWords

/-! ## The literal test header of `src/kaspad.rs` (`test::header_hash`) -/

/-- The literal block header of the source test, copied field by field. -/
def testHeader : RpcBlockHeader :=
  { version := 24565
    parents :=
      [⟨["62a5eee82abdf44a2d0b75fb180daf48a79ee0b10d394651850fd4a178892ee2",
         "85ece1511455780875d64ee2d3d0d0de6bf8f9b44ce85ff044c6b1f83b8e883b",
         "bf857aab99c5b252c7429c32f3a8aeb79ef856f659c18f0dcecc77c75e7a81bf",
         "de275f67cfe242cf3cc354f3ede2d6becc4ea3ae5e88526a9f4a578bcb9ef2d4",
         "a65314768d6d299761ea9e4f5aa6aec3fc78c6aae081ac8120c720efcd6cea84",
         "b6925e607be063716f96ddcdd01d75045c3f000f8a796bce6c512c3801aacaee"]⟩,
       ⟨["dfad5b50ece0b8b7c1965d9181251b7c9c9ca5205afc16a236a2efcdd2d12d2a",
         "79d074a8280ae9439eb0d6aeca0823ae02d67d866ac2c4fe4a725053da119b9d",
         "4f515140a2d7239c40b45ac3950d941fc4fe1c0cb96ad322d62282295fbfe11e",
         "26a433076db5c1444c3a34d32a5c4a7ffbe8d181f7ed3b8cfe904f93f8f06d29",
         "bcd9ed847b182e046410f44bc4b0f3f03a0d06820a30f257f8114130678ac045",
         "86c1e3c9342c8b8055c466d886441d259906d69acd894b968ae9f0eb9d965ce6",
         "a4693c4ebe881501b7d9846b66eb02b57e5cda7b6cba6891d616bd686c37b834"]⟩,
       ⟨["613ac8ba52734ae4e3f1217acd5f83270814301867b5d06711b238001c7957b2",
         "7719ce3f3188dfe57deebf6f82595a10f7bb562ca04d5c3d27942958c6db3262",
         "670649f3bc97d9a2316735ede682a5dfe6f1a011fbc98ad0fbe790003c01e8e9",
         "967703af665e9f72407f4b03d4fdb474aafe8a0d3e0515dd4650cf51172b8124",
         "8bcb7f969e400b6c5b127768b1c412fae98cf57631cf37033b4b4aba7d7ed319",
         "ba147249c908ac70d1c406dade0e828eb6ba0dcaa88285543e10213c643fc860",
         "3b5860236670babcad0bd7f4c4190e323623a868d1eae1769f40a26631431b3b",
         "d5215605d2086fead499ac63a4653d12283d56019c3795a98a126d09cfcbe36c",
         "dcc93788a5409f8b6e42c2dd83aa46611852ad0b5028775c771690b6854e05b3"]⟩,
       ⟨["77241e302c6da8665c42341dda4adaea595ab1895f9652489dd2ceb49c247430",
         "3cbb44c2b94303db662c9c66b8782905190f1e1635b63e34878d3f246fadfce3",
         "44e74ef813090f8030bcd525ac10653ff182e00120f7e1f796fa0fc16ba7bb90",
         "be2a33e87c3d60ab628471a420834383661801bb0bfd8e6c140071db1eb2f7a1",
         "8194f1a045a94c078835c75dff2f3e836180baad9e955da840dc74c4dc2498f8",
         "c201aec254a0e36476b2eeb124fdc6afc1b7d809c5e08b5e0e845aaf9b6c3957",
         "e95ab4aa8e107cdb873f2dac527f16c4d5ac8760768a715e4669cb840c25317f",
         "9a368774e506341afb46503e28e92e51bd7f7d4b53b9023d56f9b9ec991ac2a9",
         "d9bc45ff64bb2bf14d4051a7604b28bad44d98bfe30e54ebc07fa45f62aabe39"]⟩,
       ⟨["5cc98b2e3f6deb2990187058e4bfd2d1640653fc38a30b0f83231a965b413b0f",
         "26927e0d032e830b732bdeb3094cb1a5fa6dec9f06375ea25fe57c2853ea0932",
         "0ac8803976eacaa095c02f869fd7dc31072475940c3751d56283c49e2fefd41d",
         "f676bdcb5855a0470efd2dab7a72cc5e5f39ff7eea0f433a9fe7b6a675bc2ac5",
         "0cd218c009e21f910f9ddb09a0d059c4cd7d2ca65a2349df7a867dbedd81e9d4",
         "891619c83c42895ce1b671cb7a4bcaed9130ab1dd4cc2d8147a1595056b55f92",
         "a355db765adc8d3df88eb93d527f7f7ec869a75703ba86d4b36110e9a044593c",
         "966815d153665387dc38e507e7458df3e6b0f04035ef9419883e03c08e2d753b",
         "08c9090aabf175fdb63e8cf9a5f0783704c741c195157626401d949eaa6dbd04"]⟩,
       ⟨["d7bf5e9c18cc79dda4e12efe564ecb8a4019e1c41f2d8217c0c3a43712ae226f",
         "ce776631ae19b326a411a284741be01fb4f3aefc5def968eb6cceb8604864b4b",
         "9ad373cbac10ea7e665b294a8a790691aa5246e6ff8fd0b7fb9b9a6a958ebf28"]⟩,
       ⟨["ec5e8fc0bc0c637004cee262cef12e7cf6d9cd7772513dbd466176a07ab7c4f4",
         "65fe09747779c31495e689b65f557b0a4af6535880b82553d126ff7213542905",
         "5a64749599333e9655b43aa36728bb63bd286427441baa9f305d5c25e05229bb",
         "332f7e8375b7c45e1ea0461d333c3c725f7467b441b7d0f5e80242b7a4a18eda"]⟩,
       ⟨["e80d7d9a0a4634f07bea5c5a00212fbc591bddfebb94334f4a2d928673d262ad"]⟩,
       ⟨["abaa82988c683f4742c12099b732bd03639c1979752d837518243b74d6730124",
         "5efe5661eaa0428917f55a58cc33db284d1f2caa05f1fd7b6602980f06d10723",
         "0bf310b48cf62942017dd6680eb3ab13310eca1581afb3c5b619e5ce0682d0df",
         "c1fade3928179a9dc28cd170b5b5544e7f9b63b83da374afa28e1478dc5c2997"]⟩]
    hash_merkle_root := "a98347ec1e71514eb26822162dc7c3992fd41f0b2ccc26e55e7bd8f3fa37215f"
    accepted_id_merkle_root := "774b5216b5b872b6c2388dd950160e3ffa3bf0623c438655bb5c8c768ab33ae2"
    utxo_commitment := "ee39218674008665e20a3acdf84abef35cabcc489158c0853fd5bfa954226139"
    timestamp := -1426594953012613626
    bits := 684408190
    nonce := 8230160685758639177
    daa_score := 15448880227546599629
    blue_work := "ce5639b8ed46571e20eeaa7a62a078f8c55aef6edd6a35ed37a3d6cf98736abd"
    pruning_point := "fc44c4f57cf8f7a2ba410a70d0ad49060355b9deb97012345603d9d0d1dcb0de"
    blue_score := 29372123613087746 }

/-- The expected pre-PoW digest bytes of the source test. -/
def expectedTestHash : List Nat :=
  [85, 146, 211, 217, 138, 239, 47, 85, 152, 59, 58, 16, 4, 149, 129, 179,
   172, 226, 174, 233, 160, 96, 202, 54, 6, 225, 64, 142, 106, 0, 110, 137]

/-! ## U256 (`src/uint.rs`), embedded as naturals below `2 ^ 256` -/

/-- The 256-bit word modulus. -/
def M256 : Nat := 2 ^ 256

/-- Fuel-based bit length; `bitsN` supplies fuel `n + 1`, always enough. -/
def bitsGo : Nat → Nat → Nat
  | 0, _ => 0
  | fuel + 1, n => if n = 0 then 0 else bitsGo fuel (n / 2) + 1

/-- `U256::bits()`: the position of the highest set bit plus one (0 for 0).
The word-by-word `leading_zeros` scan of the source computes exactly the
bit length of the represented value. -/
def bitsN (n : Nat) : Nat := bitsGo (n + 1) n

/-- `!x` on `U256`: bitwise complement of a 256-bit value. -/
def notU256 (x : Nat) : Nat := M256 - 1 - x

/-- `U256::increment()`: add one, wrapping at `2 ^ 256` (the per-limb
`wrapping_add(1)` carry chain wraps exactly there). -/
def incrementU256 (x : Nat) : Nat := (x + 1) % M256

/-- `U256::low_u64()`: the least-significant limb. -/
def low_u64 (x : Nat) : Nat := x % 2 ^ 64

/-- The loop of `U256::div_rem` (bitwise restoring long division): at each
step, if the shifted divisor fits, set bit `shift` of the quotient
(`ret[shift / 64] |= 1 << (shift % 64)`, i.e. an `|||` with `2 ^ shift`)
and subtract; then halve the shifted divisor and decrement `shift`, until
`shift = 0` has been processed. -/
def divRemGo : Nat → Nat → Nat → Nat → Nat × Nat
  | subCopy, shiftCopy, ret, 0 =>
    if shiftCopy ≤ subCopy then (ret ||| 1, subCopy - shiftCopy) else (ret, subCopy)
  | subCopy, shiftCopy, ret, shift + 1 =>
    if shiftCopy ≤ subCopy then
      divRemGo (subCopy - shiftCopy) (shiftCopy / 2) (ret ||| (1 <<< (shift + 1))) shift
    else
      divRemGo subCopy (shiftCopy / 2) ret shift

/-- `U256::div_rem`: returns `(quotient, remainder)`.  Division by zero is
an assertion failure in the source, embedded as `none`.  When the dividend
has fewer bits than the divisor, the early return yields `(0, dividend)`;
otherwise the divisor is shifted up by the bit-length difference (the
`<<` truncates at 256 bits, hence the `% M256`) and the restoring loop
runs. -/
def div_rem (a b : Nat) : Option (Nat × Nat) :=
  if bitsN b = 0 then none
  else if bitsN a < bitsN b then some (0, a)
  else
    let shift := bitsN a - bitsN b
    some (divRemGo a ((b <<< shift) % M256) 0 shift)

/-- The `Div` instance of `U256`: the quotient of `div_rem`. -/
def divU256 (a b : Nat) : Option Nat :=
  (div_rem a b).map Prod.fst

/-- `U256::mul_u32`: the limb products with the carry out of the top limb
discarded, i.e. the product reduced modulo `2 ^ 256`. -/
def mul_u32 (a c : Nat) : Nat := (a * c) % M256

/-- The `Mul` instance of `U256`: eight `mul_u32` steps over the 32-bit
chunks of the right factor, each shifted into place (the `<<` and the sum
both wrap at 256 bits). -/
def mulU256 (a b : Nat) : Nat :=
  (List.range 8).foldl
    (fun me i => (me + (mul_u32 a ((b >>> (32 * i)) % 2 ^ 32) <<< (32 * i)) % M256) % M256)
    0

/-! ## Compact target and difficulty (`src/pow.rs`) -/

/-- `u256_from_compact_target`, translated clause by clause from the
source: exponent byte and 24-bit mantissa; for exponents at most 3 the
mantissa is shifted down and the exponent is zero; a mantissa with the
sign bit set yields zero; otherwise the mantissa is shifted up, the shift
truncating at 256 bits as the `U256` shift does. -/
def u256_from_compact_target (bits : Nat) : Nat :=
  let unshifted_expt := bits >>> 24
  let p :=
    if unshifted_expt ≤ 3 then
      ((bits &&& 0xFFFFFF) >>> (8 * (3 - unshifted_expt)), 0)
    else
      (bits &&& 0xFFFFFF, 8 * ((bits >>> 24) - 3))
  if 0x7FFFFF < p.1 then 0 else (p.1 <<< p.2) % M256

/-- The same decoding written the way the specification states it, with
division, remainder and multiplication in place of the bit operations. -/
def compactTargetSpec (bits : Nat) : Nat :=
  let e := bits / 2 ^ 24
  let m := bits % 2 ^ 24
  let mant := if e ≤ 3 then m / 2 ^ (8 * (3 - e)) else m
  let expt := if e ≤ 3 then 0 else 8 * (e - 3)
  if 0x7FFFFF < mant then 0 else mant * 2 ^ expt % M256

/-- `difficulty`: increment the target (wrapping), then divide the
all-ones value by it and keep the low 64 bits.  The division's assertion
failure on a zero (wrapped) target is the `none` case. -/
def difficulty (target : Nat) : Option Nat :=
  (divU256 (notU256 0) (incrementU256 target)).map low_u64

/-- `RpcBlockHeader::difficulty`.  Modelled from the spec: the method's body
is absent from the sources (only its callers in `src/stratum` are), and the
spec defines it as the difficulty of the decoded compact target of the
header's `bits` field; both constituent functions are in `src/pow.rs`.  The
call is total in Rust; the division's assertion cannot fire because a
decoded compact target is never the all-ones value, so the `Option` is
defaulted away. -/
def headerDifficulty (h : RpcBlockHeader) : Nat :=
  (difficulty (u256_from_compact_target h.bits)).getD 0

/-! ## The job cache of `src/stratum/server.rs` -/

/-- The broadcast `JobParams` of a cached job. -/
structure JobParams where
  id : Nat
  pre_pow : List Nat
  difficulty : Nat
  timestamp : Nat
deriving DecidableEq

/-- The state `JobsInner` guarded by the cache's writer lock (the upstream
handle is modelled by returning submitted blocks instead). -/
structure JobsInner where
  next : Nat
  jobs : List RpcBlock
deriving DecidableEq

/-- `Jobs::insert`: absent header or failed pre-PoW digest yield `None`;
otherwise, when fewer than 256 jobs are stored the template is appended and
the id is the old length, else the id is `next` (and the stored jobs are
left as they are); `next` becomes the id plus one, wrapping as a u8. -/
def jobsInsert (st : JobsInner) (template : RpcBlock) : JobsInner × Option JobParams :=
  match template.header with
  | none => (st, none)
  | some header =>
    match headerPrePow header with
    | none => (st, none)
    | some pre_pow =>
      let difficulty := headerDifficulty header
      let timestamp := (header.timestamp % (2 ^ 64 : Int)).toNat
      let len := st.jobs.length
      let id := if len < 256 then len else st.next
      let jobs := if len < 256 then st.jobs ++ [template] else st.jobs
      ({ next := (id + 1) % 256, jobs := jobs },
       some { id := id, pre_pow := pre_pow, difficulty := difficulty, timestamp := timestamp })

/-- `Jobs::submit` of `src/stratum/server.rs`: look the job up by id,
clone it, overwrite the clone's nonce and pass it to
`KaspadHandle::submit_block` (the returned block); `false` when the id is
unknown or the stored template has no header. -/
def jobsSubmit (st : JobsInner) (id nonce : Nat) : Bool × Option RpcBlock :=
  match st.jobs.get? id with
  | none => (false, none)
  | some b =>
    match b.header with
    | none => (false, none)
    | some h => (true, some { header := some { h with nonce := nonce } })

/-! ## Stratum wire model (`src/stratum.rs`) -/

/-- A JSON-RPC id (the source's `stratum::Id`): integer or text. -/
inductive RpcId where
  | number (n : Nat)
  | text (s : String)
deriving DecidableEq

/-- The fragment of JSON the stratum dispatcher inspects or produces. -/
inductive Json where
  | null
  | bool (b : Bool)
  | num (n : Nat)
  | str (s : String)
  | arr (l : List Json)

/-- An inbound stratum request. -/
structure Request where
  id : Option RpcId
  method : String
  params : Option Json

/-- An outbound stratum response: `Response::ok` or `Response::err` (the
error triple is `(code, message, null)`). -/
inductive Response where
  | ok (id : RpcId) (result : Json)
  | err (id : RpcId) (code : Nat) (message : String)

/-- One frame written by a session: a response, or a server-to-client
request with the session-local outbound id. -/
inductive OutMsg where
  | response (r : Response)
  | request (id : Nat) (method : String) (params : Option Json)

/-! ## The per-connection session (`src/stratum/server.rs`, `StratumConn`) -/

/-- The mutable session state of `StratumConn`. -/
structure ConnState where
  worker : List Nat
  id : Nat
  subscribed : Bool
  difficulty : Nat
deriving DecidableEq

/-- A lowercase hex digit character. -/
def hexDigitChar (n : Nat) : Char :=
  if n < 10 then Char.ofNat (48 + n) else Char.ofNat (97 + n - 10)

/-- Lowercase hex encoding of a byte list (`hex::encode`). -/
def hexEncodeChars : List Nat → List Char
  | [] => []
  | b :: rest => hexDigitChar (b / 16 % 16) :: hexDigitChar (b % 16) :: hexEncodeChars rest

/-- Lowercase hex encoding of a byte list, as a string. -/
def hexEncodeBytes (bs : List Nat) : String :=
  String.mk (hexEncodeChars bs)

/-- `JobParams::to_value`: `[hex(id byte), the four pre-PoW words, the
timestamp]`. -/
def jobParamsToValue (j : JobParams) : Json :=
  Json.arr [Json.str (hexEncodeBytes [j.id]), Json.arr (j.pre_pow.map Json.num), Json.num j.timestamp]

/-- `StratumConn::write_template`: read the watch; when a job is present,
send `mining.notify`; then, only when the session's stored difficulty is
still zero, store the job difficulty shifted down by 32 bits and send it
as the single `mining.set_difficulty` parameter.  Each outbound request
increments the session id first. -/
def write_template (st : ConnState) (watch : Option JobParams) : ConnState × List OutMsg :=
  match watch with
  | none => (st, [])
  | some j =>
    let st1 : ConnState := { st with id := st.id + 1 }
    let notif := OutMsg.request st1.id ("mining.notify") (some (jobParamsToValue j))
    if st1.difficulty = 0 then
      let st2 : ConnState := { st1 with difficulty := j.difficulty >>> 32, id := st1.id + 1 }
      (st2, [notif, OutMsg.request st2.id ("mining.set_difficulty")
        (some (Json.arr [Json.num (j.difficulty >>> 32)]))])
    else (st1, [notif])

/-- Decode the digit characters of `from_str_radix(_, 16)` with the checked
arithmetic of the Rust core: the accumulation overflows (returns `none`)
when a checked multiply by the radix or a checked add of the digit would
reach `limit`; a non-digit character fails. -/
def fromStrRadixDigits (limit : Nat) : Nat → List Char → Option Nat
  | acc, [] => some acc
  | acc, c :: rest =>
    match hexDigitVal c with
    | none => none
    | some d =>
      if limit ≤ acc * 16 then none
      else if limit ≤ acc * 16 + d then none
      else fromStrRadixDigits limit (acc * 16 + d) rest

/-- `from_str_radix(s, 16)` for an unsigned type with exclusive bound
`limit`: empty input fails; one leading `+` sign is consumed and at least
one digit must remain.  A leading `-` is a sign only for signed types in
the Rust core (the `is_signed_ty` guard), so here it falls through to the
digit loop and fails as an invalid digit. -/
def from_str_radix (limit : Nat) (s : String) : Option Nat :=
  match s.data with
  | [] => none
  | c :: rest =>
    match if c = '+' then rest else c :: rest with
    | [] => none
    | ds => fromStrRadixDigits limit 0 ds

/-- `str::trim_start_matches("0x")`: remove every leading occurrence of
`0x`. -/
def trimMatches0x : List Char → List Char
  | '0' :: 'x' :: rest => trimMatches0x rest
  | l => l

/-- `nonce.trim_start_matches("0x")` on strings. -/
def trim0x (s : String) : String :=
  String.mk (trimMatches0x s.data)

/-- Stated from the claim's words for comparison: strip a single `0x`
prefix when present. -/
def stripOnce0x (s : String) : String :=
  match s.data with
  | '0' :: 'x' :: rest => String.mk rest
  | _ => s

/-- The `serde_json::from_value::<(String, String, String)>` of the submit
arm: the params must be an array of exactly three strings. -/
def parseStringTriple : Json → Option (String × String × String)
  | Json.arr [Json.str a, Json.str b, Json.str c] => some (a, b, c)
  | _ => none

/-- One dispatch step of `StratumConn::run` for an inbound request: the
subscribe arm flips `subscribed`, answers `true`, sends `set_extranonce`
with the hex worker bytes and `6`, and writes the current template; the
submit arm parses the three string params, the u8 job id and the u64 nonce
(after `trim_start_matches("0x")`), each failed parse propagating as an
`Except.error` the way `?` makes `run` return `Err` (closing the
connection with nothing written for that request); a found job answers
`true` immediately, a missed one answers error 20; other methods are
ignored.  The third component is the block passed to the upstream handle,
if any. -/
def handleRequest (conn : ConnState) (jobs : JobsInner) (watch : Option JobParams)
    (req : Request) : Except String (ConnState × List OutMsg × Option RpcBlock) :=
  match req.id, req.method, req.params with
  | some rid, "mining.subscribe", _ =>
    let c1 : ConnState := { conn with subscribed := true }
    let out1 := OutMsg.response (Response.ok rid (Json.bool true))
    let c2 : ConnState := { c1 with id := c1.id + 1 }
    let out2 := OutMsg.request c2.id ("set_extranonce")
      (some (Json.arr [Json.str (hexEncodeBytes c2.worker), Json.num 6]))
    let r := write_template c2 watch
    Except.ok (r.1, out1 :: out2 :: r.2, none)
  | some i, "mining.submit", some p =>
    match parseStringTriple p with
    | none => Except.error ("invalid params")
    | some t =>
      match from_str_radix (2 ^ 8) t.2.1 with
      | none => Except.error ("invalid job id")
      | some id =>
        match from_str_radix (2 ^ 64) (trim0x t.2.2) with
        | none => Except.error ("invalid nonce")
        | some nonce =>
          let r := jobsSubmit jobs id nonce
          if r.1 then
            Except.ok (conn, [OutMsg.response (Response.ok i (Json.bool true))], r.2)
          else
            Except.ok (conn, [OutMsg.response (Response.err i 20 ("Unable to submit block"))], none)
  | _, _, _ => Except.ok (conn, [], none)

/-! ## The upstream client task (`src/kaspad.rs`, `ClientTask::run`) -/

/-- An upstream RPC error payload. -/
structure RpcError where
  message : String
deriving DecidableEq

/-- The `SubmitBlockResponseMessage` payload. -/
structure SubmitBlockResponseMsg where
  reject_reason : Nat
  error : Option RpcError
deriving DecidableEq

/-- The `GetInfoResponseMessage` payload. -/
structure GetInfoResponseMsg where
  server_version : String
  is_synced : Bool
deriving DecidableEq

/-- The `GetBlockTemplateResponseMessage` payload. -/
structure GetBlockTemplateResponseMsg where
  block : Option RpcBlock
  is_synced : Bool
  error : Option RpcError
deriving DecidableEq

/-- The inbound payloads `ClientTask::run` distinguishes. -/
inductive Payload where
  | getInfoResponse (m : GetInfoResponseMsg)
  | submitBlockResponse (m : SubmitBlockResponseMsg)
  | getBlockTemplateResponse (m : GetBlockTemplateResponseMsg)
  | newBlockTemplateNotification
  | notifyNewBlockTemplateResponse (error : Option RpcError)
  | other
deriving DecidableEq

/-- The internal event type forwarded to the supervisor. -/
inductive Message where
  | info (version : String) (synced : Bool)
  | template (b : RpcBlock)
  | newTemplate
deriving DecidableEq

/-- The observable outcome of one loop iteration of `ClientTask::run`:
the updated `synced` flag, the event sent on the outgoing message channel
(if any), the arguments of each `Jobs::resolve_pending` call the iteration
performs, and whether the loop breaks. -/
structure ClientStep where
  synced : Bool
  emit : Option Message
  resolve : List (Option String)
  halt : Bool
deriving DecidableEq

/-- One loop iteration of `ClientTask::run` on an inbound payload,
translated arm by arm.  The task owns no reference to the job cache, so no
arm ever calls `resolve_pending`: the `SubmitBlockResponse` arm only logs
the outcome (success, the error message, or a bare rejection) and
`continue`s.  Log lines are not observable and are dropped. -/
def clientStep (synced : Bool) (p : Payload) : ClientStep :=
  match p with
  | .getInfoResponse m =>
    { synced := m.is_synced, emit := some (.info m.server_version m.is_synced),
      resolve := [], halt := false }
  | .submitBlockResponse _ =>
    { synced := synced, emit := none, resolve := [], halt := false }
  | .getBlockTemplateResponse m =>
    match m.error with
    | some _ => { synced := synced, emit := none, resolve := [], halt := false }
    | none =>
      match m.block with
      | some b =>
        match b.header with
        | none => { synced := m.is_synced, emit := none, resolve := [], halt := false }
        | some _ => { synced := m.is_synced, emit := some (.template b), resolve := [], halt := false }
      | none => { synced := synced, emit := none, resolve := [], halt := false }
  | .newBlockTemplateNotification =>
    { synced := synced, emit := some .newTemplate, resolve := [], halt := false }
  | .notifyNewBlockTemplateResponse e =>
    match e with
    | some _ => { synced := synced, emit := none, resolve := [], halt := true }
    | none => { synced := synced, emit := none, resolve := [], halt := false }
  | .other => { synced := synced, emit := none, resolve := [], halt := false }

/-! ## Concrete fixtures used by the closed theorems -/

/-- Sixty-four zero hex characters (an all-zero 32-byte hash). -/
def zeros64 : String :=
  "0000000000000000000000000000000000000000000000000000000000000000"

/-- A minimal block header whose hex fields all decode. -/
def simpleHeader : RpcBlockHeader :=
  { version := 1, parents := [], hash_merkle_root := zeros64,
    accepted_id_merkle_root := zeros64, utxo_commitment := zeros64,
    timestamp := 0, bits := 0x207fffff, nonce := 0, daa_score := 0,
    blue_score := 0, blue_work := "", pruning_point := zeros64 }

/-- A template holding `simpleHeader`. -/
def blockA : RpcBlock := { header := some simpleHeader }

/-- A second, distinct template (version 2). -/
def blockB : RpcBlock := { header := some { simpleHeader with version := 2 } }

/-- A job cache holding 256 copies of `blockA`, as after 256 inserts
(`next` has wrapped back to 0). -/
def jobsFull : JobsInner := { next := 0, jobs := List.replicate 256 blockA }

/-- A job cache holding one job. -/
def jobsOne : JobsInner := { next := 1, jobs := [blockA] }

/-- A freshly subscribed session. -/
def conn0 : ConnState := { worker := [0, 1], id := 0, subscribed := true, difficulty := 0 }

/-- A session whose last-sent difficulty is 5. -/
def conn4 : ConnState := { worker := [0, 1], id := 0, subscribed := true, difficulty := 5 }

/-- A job whose difficulty differs from `conn4`'s last-sent difficulty. -/
def job4 : JobParams := { id := 0, pre_pow := [1, 2, 3, 4], difficulty := 2 ^ 33, timestamp := 7 }

/-! ## Theorems -/

/-- C3 counterexample: on a concrete `SubmitBlockResponse` payload carrying
an error message, the upstream client task performs no `resolve_pending`
call (the recorded call list is empty, not the `[some "bad"]` the claim
requires) and emits no event. -/
theorem c3_counterexample :
    (clientStep true (Payload.submitBlockResponse ⟨1, some ⟨"bad"⟩⟩)).resolve = []
    ∧ (clientStep true (Payload.submitBlockResponse ⟨1, some ⟨"bad"⟩⟩)).emit = none :=
  ⟨rfl, rfl⟩

/-- C3 (amended): on receiving a `SubmitBlockResponse` payload the upstream
client task only logs the outcome: it emits no event on the outgoing
message channel, calls `resolve_pending` on nothing (it holds no reference
to the job cache), leaves the synced flag unchanged and keeps running. -/
theorem c3_submit_ack_only_logged (synced : Bool) (m : SubmitBlockResponseMsg) :
    clientStep synced (Payload.submitBlockResponse m) =
      { synced := synced, emit := none, resolve := [], halt := false } :=
  rfl

/-- C4 counterexample: with a last-sent difficulty of 5 and a job whose
difficulty differs from it, `write_template` neither sends
`mining.set_difficulty` nor updates the stored difficulty — it only sends
`mining.notify`. -/
theorem c4_counterexample :
    job4.difficulty ≠ conn4.difficulty
    ∧ write_template conn4 (some job4) =
        ({ conn4 with id := 1 },
         [OutMsg.request 1 ("mining.notify") (some (jobParamsToValue job4))]) :=
  ⟨by decide, rfl⟩

/-- C4 (amended): `write_template` sends `mining.set_difficulty` only when
the session's stored difficulty is still zero; it then stores the job
difficulty shifted right by 32 bits and sends that integer as the single
parameter.  When the stored difficulty is nonzero, only `mining.notify` is
sent, whatever the job's difficulty. -/
theorem c4_set_difficulty_only_when_zero (st : ConnState) (j : JobParams) :
    (st.difficulty = 0 →
      write_template st (some j) =
        ({ st with id := st.id + 2, difficulty := j.difficulty >>> 32 },
         [OutMsg.request (st.id + 1) ("mining.notify") (some (jobParamsToValue j)),
          OutMsg.request (st.id + 2) ("mining.set_difficulty")
            (some (Json.arr [Json.num (j.difficulty >>> 32)]))]))
    ∧ (st.difficulty ≠ 0 →
      write_template st (some j) =
        ({ st with id := st.id + 1 },
         [OutMsg.request (st.id + 1) ("mining.notify") (some (jobParamsToValue j))])) := by
  constructor <;> intro h <;> simp [write_template, h]

/-- C4 witness: the amended statement applied to a fresh session and `job4`:
the update and the two outbound frames are exactly as stated. -/
theorem c4_set_difficulty_only_when_zero_witness :
    write_template conn0 (some job4) =
      ({ conn0 with id := 2, difficulty := job4.difficulty >>> 32 },
       [OutMsg.request 1 ("mining.notify") (some (jobParamsToValue job4)),
        OutMsg.request 2 ("mining.set_difficulty")
          (some (Json.arr [Json.num (job4.difficulty >>> 32)]))]) :=
  (c4_set_difficulty_only_when_zero conn0 job4).1 rfl

/-- C2 counterexample: on a concrete `mining.submit` whose job id is found
(`jobs.submit` returns `true`), the session writes the `true` response
immediately in the same dispatch step — there is no pending channel and
nothing is deferred to an upstream acknowledgement. -/
theorem c2_counterexample :
    (jobsSubmit jobsOne 0 1).1 = true
    ∧ handleRequest conn0 jobsOne none
        { id := some (RpcId.number 2), method := "mining.submit",
          params := some (Json.arr [Json.str ("w"), Json.str ("00"), Json.str ("1")]) } =
      Except.ok (conn0,
        [OutMsg.response (Response.ok (RpcId.number 2) (Json.bool true))],
        some { header := some { simpleHeader with nonce := 1 } }) :=
  ⟨rfl, rfl⟩

/-- C2 (amended): a well-formed `mining.submit` is always answered
immediately by the dispatch step itself: with `true` when `jobs.submit`
found the job (the nonce-patched clone going to the upstream handle in the
same step), and with error `(20, "Unable to submit block")` when it did
not.  No response is deferred. -/
theorem c2_submit_responds_immediately (conn : ConnState) (jobs : JobsInner)
    (watch : Option JobParams) (i : RpcId) (p : Json) (w jid non : String) (id nonce : Nat)
    (hp : parseStringTriple p = some (w, jid, non))
    (hid : from_str_radix (2 ^ 8) jid = some id)
    (hn : from_str_radix (2 ^ 64) (trim0x non) = some nonce) :
    handleRequest conn jobs watch { id := some i, method := "mining.submit", params := some p } =
      Except.ok (conn,
        [OutMsg.response (if (jobsSubmit jobs id nonce).1 then Response.ok i (Json.bool true)
          else Response.err i 20 ("Unable to submit block"))],
        if (jobsSubmit jobs id nonce).1 then (jobsSubmit jobs id nonce).2 else none) := by
  simp only [handleRequest, hp, hid, hn]
  cases hjs : jobsSubmit jobs id nonce with
  | mk ok blk => cases ok <;> simp [hjs]

/-- C2 witness: the amended statement applied to the one-job cache and the
submit of `c2_counterexample`, every parse hypothesis discharged on the
concrete strings. -/
theorem c2_submit_responds_immediately_witness :
    handleRequest conn0 jobsOne none
      { id := some (RpcId.number 2), method := "mining.submit",
        params := some (Json.arr [Json.str ("w"), Json.str ("00"), Json.str ("1")]) } =
      Except.ok (conn0,
        [OutMsg.response (if (jobsSubmit jobsOne 0 1).1 then Response.ok (RpcId.number 2) (Json.bool true)
          else Response.err (RpcId.number 2) 20 ("Unable to submit block"))],
        if (jobsSubmit jobsOne 0 1).1 then (jobsSubmit jobsOne 0 1).2 else none) :=
  c2_submit_responds_immediately conn0 jobsOne none (RpcId.number 2) _ "w" "00" "1" 0 1 rfl rfl rfl

/-- C10 counterexample: the nonce string `"0x0x1"` is not valid u64
hexadecimal after stripping a single `0x` prefix (the claim's reading), yet
the session does not error: `trim_start_matches` removes every leading
`0x`, the remaining `"1"` parses, and the submit succeeds with an immediate
response. -/
theorem c10_counterexample :
    from_str_radix (2 ^ 64) (stripOnce0x ("0x0x1")) = none
    ∧ handleRequest conn0 jobsOne none
        { id := some (RpcId.number 3), method := "mining.submit",
          params := some (Json.arr [Json.str ("w"), Json.str ("00"), Json.str ("0x0x1")]) } =
      Except.ok (conn0,
        [OutMsg.response (Response.ok (RpcId.number 3) (Json.bool true))],
        some { header := some { simpleHeader with nonce := 1 } }) :=
  ⟨rfl, rfl⟩

/-- C10 (amended): when the params of a `mining.submit` are not a 3-tuple
of strings, or the job-id string is not valid u8 hexadecimal, or the nonce
string is not valid u64 hexadecimal after `trim_start_matches("0x")`
(which strips every leading `0x` occurrence, not just one), the dispatch
step propagates the parse failure as an error — `run` returns `Err`,
terminating the connection — and no stratum response is written for the
request. -/
theorem c10_malformed_submit_errors (conn : ConnState) (jobs : JobsInner)
    (watch : Option JobParams) (i : RpcId) (p : Json)
    (hbad : parseStringTriple p = none
      ∨ ∃ w jid non, parseStringTriple p = some (w, jid, non)
          ∧ (from_str_radix (2 ^ 8) jid = none
             ∨ from_str_radix (2 ^ 64) (trim0x non) = none)) :
    ∃ e, handleRequest conn jobs watch
        { id := some i, method := "mining.submit", params := some p } = Except.error e := by
  rcases hbad with hp | ⟨w, jid, non, hp, hid | hn⟩
  · refine ⟨"invalid params", ?_⟩
    simp only [handleRequest, hp]
  · refine ⟨"invalid job id", ?_⟩
    simp only [handleRequest, hp, hid]
  · cases hid : from_str_radix (2 ^ 8) jid with
    | none =>
      refine ⟨"invalid job id", ?_⟩
      simp only [handleRequest, hp, hid]
    | some id =>
      refine ⟨"invalid nonce", ?_⟩
      simp only [handleRequest, hp, hid, hn]

/-- C10 witness: the amended statement applied to params that are not a
3-tuple of strings (an empty array). -/
theorem c10_malformed_submit_errors_witness :
    ∃ e, handleRequest conn0 jobsOne none
        { id := some (RpcId.number 4), method := "mining.submit",
          params := some (Json.arr []) } = Except.error e :=
  c10_malformed_submit_errors conn0 jobsOne none (RpcId.number 4) (Json.arr []) (Or.inl rfl)

/-- C6: for every 32-bit `bits` value, `u256_from_compact_target` computes
exactly the decoding the claim states: with exponent `e = bits >> 24` and
mantissa `m = bits & 0xFFFFFF`, for `e ≤ 3` the mantissa is shifted down by
`8 * (3 - e)` with exponent 0, otherwise the mantissa is `m` with exponent
`8 * (e - 3)`; a mantissa above `0x7FFFFF` yields zero, otherwise the
mantissa shifted left by the exponent as a 256-bit value. -/
theorem c6_compact_target (bits : Nat) (hb : bits < 2 ^ 32) :
    u256_from_compact_target bits = compactTargetSpec bits := by
  unfold u256_from_compact_target compactTargetSpec
  have hm : (0xFFFFFF : Nat) = 2 ^ 24 - 1 := by norm_num
  rw [hm]
  simp only [Nat.shiftRight_eq_div_pow, Nat.and_pow_two_sub_one_eq_mod, Nat.shiftLeft_eq]
  by_cases he : bits / 16777216 ≤ 3 <;> simp [he]

/-- C6 witness: the equality applied to the classic compact value
`0x1d00ffff`. -/
theorem c6_compact_target_witness :
    u256_from_compact_target 0x1d00ffff = compactTargetSpec 0x1d00ffff :=
  c6_compact_target 0x1d00ffff (by decide)

/-- C8: two headers that agree on every field except the timestamp and the
nonce have the same pre-PoW hash — `hash(pre_pow = true)` absorbs zero in
place of both fields, so the digest does not depend on them. -/
theorem c8_pre_pow_ignores_timestamp_nonce (h₁ h₂ : RpcBlockHeader)
    (hv : h₁.version = h₂.version) (hp : h₁.parents = h₂.parents)
    (hm : h₁.hash_merkle_root = h₂.hash_merkle_root)
    (ha : h₁.accepted_id_merkle_root = h₂.accepted_id_merkle_root)
    (hu : h₁.utxo_commitment = h₂.utxo_commitment)
    (hb : h₁.bits = h₂.bits) (hd : h₁.daa_score = h₂.daa_score)
    (hs : h₁.blue_score = h₂.blue_score) (hw : h₁.blue_work = h₂.blue_work)
    (hq : h₁.pruning_point = h₂.pruning_point) :
    headerHash h₁ true = headerHash h₂ true := by
  cases h₁
  cases h₂
  dsimp only at hv hp hm ha hu hb hd hs hw hq
  subst hv hp hm ha hu hb hd hs hw hq
  rfl

/-- C8 witness: the theorem applied to `simpleHeader` and its copy with a
different timestamp and nonce. -/
theorem c8_pre_pow_ignores_timestamp_nonce_witness :
    headerHash { simpleHeader with timestamp := 77, nonce := 99 } true =
      headerHash simpleHeader true :=
  c8_pre_pow_ignores_timestamp_nonce _ _ rfl rfl rfl rfl rfl rfl rfl rfl rfl rfl

/-- The fuel-based bit length agrees with `Nat.size` whenever the fuel
exceeds the argument. -/
theorem bitsGo_eq_size : ∀ fuel n, n < fuel → bitsGo fuel n = Nat.size n := by
  intro fuel
  induction fuel with
  | zero => intro n h; exact absurd h (Nat.not_lt_zero n)
  | succ fuel ih =>
    intro n h
    by_cases h0 : n = 0
    · simp [bitsGo, h0]
    · rw [bitsGo, if_neg h0, ih (n / 2) (by omega)]
      conv_rhs => rw [← Nat.bit_decomp n]
      rw [Nat.size_bit (by rw [Nat.bit_decomp]; exact h0), Nat.div2_val]

/-- `U256::bits()` is the bit length. -/
theorem bitsN_eq_size (n : Nat) : bitsN n = Nat.size n :=
  bitsGo_eq_size (n + 1) n (Nat.lt_succ_self n)

/-- Doubling distributes over bitwise or. -/
theorem two_mul_lor_two_mul (a b : Nat) : (2 * a) ||| (2 * b) = 2 * (a ||| b) := by
  simpa [Nat.bit_val] using Nat.lor_bit false a false b

/-- Bitwise or with 1 on an even number is the successor. -/
theorem two_mul_lor_one (a : Nat) : (2 * a) ||| 1 = 2 * a + 1 := by
  simpa [Nat.bit_val, Nat.or_zero] using Nat.lor_bit false a true 0

/-- Setting bit `s` of a value divisible by `2 ^ (s + 1)` by an `or` is the
same as adding `2 ^ s` (the quotient bits set by the division loop never
collide). -/
theorem lor_pow_dvd {r s : Nat} (h : 2 ^ (s + 1) ∣ r) : r ||| 2 ^ s = r + 2 ^ s := by
  obtain ⟨k, rfl⟩ := h
  induction s generalizing k with
  | zero =>
    calc 2 ^ (0 + 1) * k ||| 2 ^ 0
        = (2 * k) ||| 1 := by norm_num
      _ = 2 * k + 1 := two_mul_lor_one k
      _ = 2 ^ (0 + 1) * k + 2 ^ 0 := by norm_num
  | succ s ih =>
    calc 2 ^ (s + 1 + 1) * k ||| 2 ^ (s + 1)
        = (2 * (2 ^ (s + 1) * k)) ||| (2 * 2 ^ s) := by congr 1 <;> ring
      _ = 2 * ((2 ^ (s + 1) * k) ||| 2 ^ s) := two_mul_lor_two_mul _ _
      _ = 2 * (2 ^ (s + 1) * k + 2 ^ s) := by rw [ih k]
      _ = 2 ^ (s + 1 + 1) * k + 2 ^ (s + 1) := by ring

/-- Correctness of the restoring-division loop: starting from a dividend
below `divisor * 2 ^ (shift + 1)`, with the shifted divisor at
`divisor * 2 ^ shift` and a partial quotient divisible by
`2 ^ (shift + 1)`, the loop adds the quotient and leaves the remainder. -/
theorem divRemGo_correct : ∀ (shift subCopy ret b : Nat), 0 < b →
    subCopy < b * 2 ^ (shift + 1) → 2 ^ (shift + 1) ∣ ret →
    divRemGo subCopy (b * 2 ^ shift) ret shift = (ret + subCopy / b, subCopy % b) := by
  intro shift
  induction shift with
  | zero =>
    intro subCopy ret b hb hlt hdvd
    rw [divRemGo, pow_zero, mul_one]
    have h4 : (2 : Nat) ^ (0 + 1) = 2 := by norm_num
    rw [h4] at hlt hdvd
    by_cases hle : b ≤ subCopy
    · rw [if_pos hle]
      have h1 : ret ||| 1 = ret + 1 := by
        have h2 := lor_pow_dvd (s := 0) (by simpa using hdvd)
        simpa using h2
      have hd : subCopy / b = 1 := Nat.div_eq_of_lt_le (by omega) (by omega)
      have hm2 : subCopy % b = subCopy - b := by
        rw [Nat.mod_eq_sub_mod hle, Nat.mod_eq_of_lt (by omega)]
      rw [h1, hd, hm2]
    · rw [if_neg hle]
      have hlt2 : subCopy < b := by omega
      rw [Nat.div_eq_of_lt hlt2, Nat.mod_eq_of_lt hlt2]
      simp
  | succ s ih =>
    intro subCopy ret b hb hlt hdvd
    rw [divRemGo]
    have hhalf : b * 2 ^ (s + 1) / 2 = b * 2 ^ s := by
      rw [pow_succ, ← Nat.mul_assoc]
      exact Nat.mul_div_left (b * 2 ^ s) (by norm_num)
    by_cases hle : b * 2 ^ (s + 1) ≤ subCopy
    · rw [if_pos hle, hhalf]
      have hor : ret ||| 1 <<< (s + 1) = ret + 2 ^ (s + 1) := by
        rw [Nat.shiftLeft_eq, one_mul]
        exact lor_pow_dvd hdvd
      rw [hor]
      have hlt2 : subCopy - b * 2 ^ (s + 1) < b * 2 ^ (s + 1) := by
        have h2 : b * 2 ^ (s + 1 + 1) = 2 * (b * 2 ^ (s + 1)) := by ring
        omega
      have hdvd2 : 2 ^ (s + 1) ∣ ret + 2 ^ (s + 1) :=
        dvd_add (dvd_trans (pow_dvd_pow 2 (by omega)) hdvd) dvd_rfl
      rw [ih (subCopy - b * 2 ^ (s + 1)) (ret + 2 ^ (s + 1)) b hb hlt2 hdvd2]
      have hsplit : (subCopy - b * 2 ^ (s + 1)) + b * 2 ^ (s + 1) = subCopy :=
        Nat.sub_add_cancel hle
      conv_rhs => rw [← hsplit]
      rw [Nat.add_mul_div_left _ _ hb, Nat.add_mul_mod_self_left]
      refine Prod.ext ?_ rfl
      simp only []
      ring
    · rw [if_neg hle, hhalf]
      exact ih subCopy ret b hb (by omega) (dvd_trans (pow_dvd_pow 2 (by omega)) hdvd)

/-- `U256::div_rem` computes truncated division and remainder for any
256-bit operands with a nonzero divisor. -/
theorem div_rem_eq (a b : Nat) (hb : 0 < b) (ha2 : a < M256) (hb2 : b < M256) :
    div_rem a b = some (a / b, a % b) := by
  have hsa := bitsN_eq_size a
  have hsb := bitsN_eq_size b
  rw [div_rem]
  have hb0 : ¬ bitsN b = 0 := by
    rw [hsb, Nat.size_eq_zero]
    omega
  rw [if_neg hb0]
  by_cases hlt : bitsN a < bitsN b
  · rw [if_pos hlt]
    rw [hsa, hsb] at hlt
    have h1 : a < 2 ^ Nat.size a := Nat.lt_size_self a
    have h3 : 2 ^ Nat.size a ≤ b := Nat.lt_size.mp hlt
    have hab : a < b := by omega
    rw [Nat.div_eq_of_lt hab, Nat.mod_eq_of_lt hab]
  · rw [if_neg hlt]
    show some (divRemGo a ((b <<< (bitsN a - bitsN b)) % M256) 0 (bitsN a - bitsN b)) =
      some (a / b, a % b)
    rw [hsa, hsb] at hlt ⊢
    have hba : Nat.size b ≤ Nat.size a := Nat.le_of_not_lt hlt
    have hplus : Nat.size b + (Nat.size a - Nat.size b) = Nat.size a := by omega
    have hsize_a : Nat.size a ≤ 256 := Nat.size_le.mpr ha2
    have hbpos : 0 < Nat.size b := Nat.size_pos.mpr hb
    have hshl : (b <<< (Nat.size a - Nat.size b)) % M256 = b * 2 ^ (Nat.size a - Nat.size b) := by
      rw [Nat.shiftLeft_eq]
      apply Nat.mod_eq_of_lt
      have h1 : b < 2 ^ Nat.size b := Nat.lt_size_self b
      calc b * 2 ^ (Nat.size a - Nat.size b)
          < 2 ^ Nat.size b * 2 ^ (Nat.size a - Nat.size b) :=
            mul_lt_mul_of_pos_right h1 (pow_pos (by norm_num) _)
        _ = 2 ^ Nat.size a := by rw [← pow_add, hplus]
        _ ≤ 2 ^ 256 := Nat.pow_le_pow_right (by norm_num) hsize_a
    rw [hshl]
    have hinv : a < b * 2 ^ ((Nat.size a - Nat.size b) + 1) := by
      have h1 : a < 2 ^ Nat.size a := Nat.lt_size_self a
      have h2 : 2 ^ (Nat.size b - 1) ≤ b := Nat.lt_size.mp (by omega)
      calc a < 2 ^ Nat.size a := h1
        _ = 2 ^ ((Nat.size b - 1) + ((Nat.size a - Nat.size b) + 1)) := by congr 1; omega
        _ = 2 ^ (Nat.size b - 1) * 2 ^ ((Nat.size a - Nat.size b) + 1) := pow_add 2 _ _
        _ ≤ b * 2 ^ ((Nat.size a - Nat.size b) + 1) := Nat.mul_le_mul_right _ h2
    rw [divRemGo_correct _ a 0 b hb hinv (dvd_zero _)]
    simp

/-- C7: for every 256-bit target other than the all-ones value, the
difficulty is the low 64 bits of the exact quotient of the all-ones
256-bit numerator by the incremented target. -/
theorem c7_difficulty (T : Nat) (h1 : T < M256) (h2 : T ≠ M256 - 1) :
    difficulty T = some ((M256 - 1) / (T + 1) % 2 ^ 64) := by
  have hpos : 0 < M256 := by norm_num [M256]
  have hT1 : T + 1 < M256 := by omega
  rw [difficulty, incrementU256, notU256, Nat.mod_eq_of_lt hT1, divU256]
  rw [div_rem_eq (M256 - 1 - 0) (T + 1) (Nat.succ_pos T) (by omega) hT1]
  simp [low_u64]

/-- C7 witness: the theorem applied to the target `2 ^ 256 - 2`. -/
theorem c7_difficulty_witness :
    difficulty (M256 - 2) = some ((M256 - 1) / (M256 - 2 + 1) % 2 ^ 64) :=
  c7_difficulty (M256 - 2) (by decide) (by decide)

/-- The chunked multiplication loop accumulates the product with the low
`32 * n` bits of the right factor, modulo `2 ^ 256`. -/
theorem mul_fold (a b : Nat) : ∀ (n : Nat) (me : Nat), me < M256 →
    (List.range n).foldl
      (fun me i => (me + (mul_u32 a ((b >>> (32 * i)) % 2 ^ 32) <<< (32 * i)) % M256) % M256) me
    = (me + a * (b % 2 ^ (32 * n))) % M256 := by
  intro n
  induction n with
  | zero =>
    intro me hme
    simp [Nat.mod_one, Nat.mod_eq_of_lt hme]
  | succ n ih =>
    intro me hme
    rw [List.range_succ, List.foldl_append, ih me hme]
    simp only [List.foldl_cons, List.foldl_nil]
    rw [mul_u32, Nat.shiftLeft_eq, Nat.shiftRight_eq_div_pow]
    have hsplit : b % 2 ^ (32 * (n + 1)) =
        b % 2 ^ (32 * n) + 2 ^ (32 * n) * (b / 2 ^ (32 * n) % 2 ^ 32) := by
      have he : 32 * (n + 1) = 32 * n + 32 := by ring
      rw [he, pow_add]
      exact Nat.mod_mul
    rw [Nat.mod_mul_mod, Nat.mod_add_mod, Nat.add_mod_mod, hsplit]
    congr 1
    ring

/-- The `Mul` instance of `U256` is multiplication modulo `2 ^ 256`. -/
theorem mulU256_eq (a b : Nat) (hb : b < M256) : mulU256 a b = a * b % M256 := by
  rw [mulU256, mul_fold a b 8 0 (by norm_num [M256])]
  have hb8 : b % 2 ^ (32 * 8) = b := Nat.mod_eq_of_lt (by simpa [M256] using hb)
  rw [hb8, Nat.zero_add]

/-- C9 counterexample: for `a = 2` and `b = 2 ^ 255` (a nonzero divisor)
the 256-bit product wraps to zero, so `(a * b) / b` is zero, not `a`. -/
theorem c9_counterexample :
    (2 ^ 255 : Nat) ≠ 0
    ∧ divU256 (mulU256 2 (2 ^ 255)) (2 ^ 255) = some 0
    ∧ (0 : Nat) ≠ 2 := by
  refine ⟨by decide, by decide, by decide⟩

/-- C9 (amended): `(a * b) / b = a` for the `U256` operators whenever the
divisor is nonzero and the product does not overflow 256 bits. -/
theorem c9_mul_div_roundtrip (a b : Nat) (ha : a < M256) (hb : b < M256)
    (hb0 : b ≠ 0) (hov : a * b < M256) :
    divU256 (mulU256 a b) b = some a := by
  rw [mulU256_eq a b hb, Nat.mod_eq_of_lt hov, divU256,
    div_rem_eq (a * b) b (Nat.pos_of_ne_zero hb0) hov hb]
  simp [Nat.mul_div_cancel_left, Nat.mul_div_left a (Nat.pos_of_ne_zero hb0)]

/-- C9 witness: the amended statement at `a = 3`, `b = 5`. -/
theorem c9_mul_div_roundtrip_witness :
    divU256 (mulU256 3 5) 5 = some 3 :=
  c9_mul_div_roundtrip 3 5 (by decide) (by decide) (by decide) (by decide)

/-- C1: evidence for the wrap-around bug.  With 256 jobs stored (a cache
filled by 256 inserts of `blockA`), inserting the distinct template
`blockB` returns id 0 — but the stored jobs are untouched: slot 0 still
holds `blockA`, and a subsequent submit with job id 0 clones and sends
`blockA`'s template (with the nonce patched in), not `blockB`, the
template id 0 was just broadcast for. -/
theorem c1_insert_no_overwrite :
    (jobsInsert jobsFull blockB).2.map JobParams.id = some 0
    ∧ (jobsInsert jobsFull blockB).1.next = 1
    ∧ (jobsInsert jobsFull blockB).1.jobs.get? 0 = some blockA
    ∧ jobsSubmit (jobsInsert jobsFull blockB).1 0 5 =
        (true, some { header := some { simpleHeader with nonce := 5 } })
    ∧ blockA ≠ blockB :=
  ⟨rfl, rfl, rfl, rfl, by decide⟩

/-- C5: `hash(pre_pow = true)` of the literal test header reproduces the
literal 32-byte digest of the source test exactly. -/
theorem c5_header_hash_vector : headerHash testHeader true = some expectedTestHash := by
  decide
